import Mathlib

/-!
Verification development for the roadrunner websockets plugin (v2).

The Go sources embedded here are `plugin.go` (gateway middleware, broker
reader loop, payload pool, default access validator) and the `validator`
package (request serialization for server/topic admission, `FetchIP`,
`URI`).  Byte strings are modelled as Lean `String`s; Go maps carried on a
request (headers, attribute bag) are modelled as association lists whose
list order stands for the map's iteration order, which Go does not fix.
-/

namespace Websockets

/-- Values stored in the request attribute bag (`map[string]interface\x7b\x7d`
in Go).  The validators store a boolean (`true`) or a string (the joined
topic list); `unserializable` stands for an interface value that the JSON
encoder rejects, so that the marshal-error path of the validators is
representable. -/
inductive AttrValue where
  | str (s : String)
  | bool (b : Bool)
  | unserializable
deriving DecidableEq

/-- Association-list lookup, modelling Go map indexing `m[k]`. -/
def lookupEntry : List (String × AttrValue) → String → Option AttrValue
  | [], _ => none
  | (k', v) :: rest, k => if k' = k then some v else lookupEntry rest k

/-- Association-list update, modelling Go map assignment `m[k] = v`
(overwrite in place when the key exists, append otherwise). -/
def setEntry : List (String × AttrValue) → String → AttrValue → List (String × AttrValue)
  | [], k, v => [(k, v)]
  | (k', v') :: rest, k, v =>
    if k' = k then (k, v) :: rest else (k', v') :: setEntry rest k v

/-- Association-list removal, modelling Go `delete(m, k)`. -/
def delEntry (m : List (String × AttrValue)) (k : String) : List (String × AttrValue) :=
  m.filter (fun p => p.1 != k)

/-- HTTP header map `map[string][]string`, entries in iteration order. -/
abbrev Header := List (String × List String)

/-- The parts of a Go `*http.Request` that the plugin reads: scalar fields,
the URL pieces used by `URI`, the header map and the attribute bag stored
in the request context (`none` when no bag was installed). -/
structure HttpRequest where
  remoteAddr : String
  proto : String
  method : String
  urlString : String
  urlHost : String
  host : String
  tls : Bool
  rawQuery : String
  header : Header
  attrs : Option (List (String × AttrValue))
deriving DecidableEq

/-- Modelled from the spec: the `attributes` package of this repository is
not among the sources.  `Init` installs a fresh empty attribute bag on the
request ("the arbitrary string-to-value attribute bag"). -/
def attrInit (r : HttpRequest) : HttpRequest := { r with attrs := some [] }

/-- Modelled from the spec: `attributes.Set` writes one key of the bag and
fails when no bag has been installed on the request. -/
def attrSet (r : HttpRequest) (k : String) (v : AttrValue) : Option HttpRequest :=
  match r.attrs with
  | none => none
  | some m => some { r with attrs := some (setEntry m k v) }

/-- Modelled from the spec: `attributes.All` returns the request's bag. -/
def attrAll (r : HttpRequest) : List (String × AttrValue) :=
  match r.attrs with
  | none => []
  | some m => m

/-- Modelled from the spec: `delete(attributes.All(r), k)` removes one key
from the request's bag. -/
def attrDelete (r : HttpRequest) (k : String) : HttpRequest :=
  match r.attrs with
  | none => r
  | some m => { r with attrs := some (delEntry m k) }

/-- Lookup of one key in the request's attribute bag. -/
def attrLookup (r : HttpRequest) (k : String) : Option AttrValue :=
  lookupEntry (attrAll r) k

/-- Go `bytes.IndexByte`-style first index of a character, as used by
`net.SplitHostPort`. -/
def goIndexByte (t : Char) : List Char → Option Nat
  | [] => none
  | c :: cs => if c = t then some 0 else (goIndexByte t cs).map (· + 1)

/-- Last index of a character, Go's `last(hostPort, ':')` in
`net.SplitHostPort`. -/
def goLastIndexByte (t : Char) : List Char → Option Nat
  | [] => none
  | c :: cs =>
    match goLastIndexByte t cs with
    | some i => some (i + 1)
    | none => if c = t then some 0 else none

/-- Model of Go's `net.SplitHostPort` (standard library): returns
`(host, port, ok)`; every error path of the Go function returns empty
host and port with `ok = false`. -/
def splitHostPort (hostPort : List Char) : List Char × List Char × Bool :=
  match goLastIndexByte ':' hostPort with
  | none => ([], [], false)
  | some i =>
    if hostPort.head? = some '[' then
      match goIndexByte ']' hostPort with
      | none => ([], [], false)
      | some e =>
        if e + 1 = hostPort.length then ([], [], false)
        else if e + 1 = i then
          if (goIndexByte '[' (hostPort.drop 1)).isSome then ([], [], false)
          else if (goIndexByte ']' (hostPort.drop (e + 1))).isSome then ([], [], false)
          else ((hostPort.take e).drop 1, hostPort.drop (i + 1), true)
        else ([], [], false)
    else
      if ':' ∈ hostPort.take i then ([], [], false)
      else if (goIndexByte '[' hostPort).isSome then ([], [], false)
      else if (goIndexByte ']' hostPort).isSome then ([], [], false)
      else (hostPort.take i, hostPort.drop (i + 1), true)

/-- `validator.FetchIP`: return the input unchanged when it holds no colon,
otherwise the host part that `net.SplitHostPort` yields (the error of
`SplitHostPort` is discarded, so on malformed input the empty host is
returned). -/
def fetchIP (pair : List Char) : List Char :=
  if ':' ∈ pair then (splitHostPort pair).1 else pair

/-- `FetchIP` on Lean strings. -/
def FetchIP (s : String) : String := String.mk (fetchIP s.data)

/-- `strings.ReplaceAll(s, onechar, "")` for a one-character pattern:
drop every occurrence of that character. -/
def removeChar (t : Char) (s : String) : String :=
  String.mk (s.data.filter (fun c => c != t))

/-- Newline and carriage-return removal applied by the validators to the
raw query (`strings.ReplaceAll` twice). -/
def sanitizeQuery (s : String) : String :=
  removeChar '\r' (removeChar '\n' s)

/-- `validator.URI`: the URL rendered as a string, newline/CR-sanitized,
prefixed with an inferred scheme and the host when the URL itself carries
no host. -/
def URI (r : HttpRequest) : String :=
  let uri := removeChar '\r' (removeChar '\n' r.urlString)
  if r.urlHost ≠ "" then uri
  else if r.tls then "https://" ++ r.host ++ uri
  else "http://" ++ r.host ++ uri

/-- The serialized `validator.Request` structure (PSR-7 style view of the
HTTP request handed to the worker). -/
structure Request where
  remoteAddr : String
  protocol : String
  method : String
  uri : String
  header : Header
  cookies : List (String × String)
  rawQuery : String
  parsed : Bool
  attributes : List (String × AttrValue)
deriving DecidableEq

/-- Minimal JSON string escaping (quote and backslash); the full escape
table of the encoder is irrelevant to the claims below. -/
def escapeChar (c : Char) : String :=
  if c = '"' then "\\\"" else if c = '\\' then "\\\\" else String.singleton c

/-- JSON string literal. -/
def jstr (s : String) : String :=
  "\"" ++ String.join (s.data.map escapeChar) ++ "\""

/-- JSON array of strings. -/
def jstrList (l : List String) : String :=
  "[" ++ String.intercalate "," (l.map jstr) ++ "]"

/-- JSON encoding of the header map.  The entries are emitted in iteration
order: the validators marshal with json-iterator's default configuration,
which does not sort map keys. -/
def jsonHeader (h : Header) : String :=
  "\x7b" ++ String.intercalate "," (h.map (fun p => jstr p.1 ++ ":" ++ jstrList p.2)) ++ "\x7d"

/-- JSON encoding of the cookies map (always empty in the validators). -/
def jsonCookies (cs : List (String × String)) : String :=
  "\x7b" ++ String.intercalate "," (cs.map (fun p => jstr p.1 ++ ":" ++ jstr p.2)) ++ "\x7d"

/-- JSON encoding of one attribute value; fails on an unserializable
interface value. -/
def marshalAttrValue : AttrValue → Option String
  | .str s => some (jstr s)
  | .bool true => some "true"
  | .bool false => some "false"
  | .unserializable => none

/-- JSON encoding of the attribute bag, entries in iteration order. -/
def jsonAttrs (m : List (String × AttrValue)) : Option String :=
  (m.mapM (fun p => (marshalAttrValue p.2).map (fun v => jstr p.1 ++ ":" ++ v))).map
    (fun es => "\x7b" ++ String.intercalate "," es ++ "\x7d")

/-- JSON boolean. -/
def jbool : Bool → String
  | true => "true"
  | false => "false"

/-- `json.Marshal(req)` for the serialized `Request`: struct fields in
declaration order under their JSON tags; map-valued fields in iteration
order. -/
def marshalRequest (rq : Request) : Option String :=
  (jsonAttrs rq.attributes).map (fun attrsJson =>
    "\x7b" ++ jstr "remoteAddr" ++ ":" ++ jstr rq.remoteAddr ++
    "," ++ jstr "protocol" ++ ":" ++ jstr rq.protocol ++
    "," ++ jstr "method" ++ ":" ++ jstr rq.method ++
    "," ++ jstr "uri" ++ ":" ++ jstr rq.uri ++
    "," ++ jstr "headers" ++ ":" ++ jsonHeader rq.header ++
    "," ++ jstr "cookies" ++ ":" ++ jsonCookies rq.cookies ++
    "," ++ jstr "rawQuery" ++ ":" ++ jstr rq.rawQuery ++
    "," ++ jstr "parsed" ++ ":" ++ jbool rq.parsed ++
    "," ++ jstr "attributes" ++ ":" ++ attrsJson ++ "\x7d")

/-- Attribute key set by the server-admission validator. -/
def joinServer : String := "ws:joinServer"

/-- Attribute key set by the topic-admission validator. -/
def joinTopics : String := "ws:joinTopics"

/-- The `validator.Request` literal built by both validators from the
(marker-carrying) HTTP request. -/
def buildRequest (r : HttpRequest) : Request :=
  { remoteAddr := FetchIP r.remoteAddr
    protocol := r.proto
    method := r.method
    uri := URI r
    header := r.header
    cookies := []
    rawQuery := sanitizeQuery r.rawQuery
    parsed := false
    attributes := attrAll r }

/-- `validator.ServerAccessValidator`: set the `ws:joinServer` marker (an
error here returns at once), serialize the request, and remove the marker
on every later exit path (the Go `defer delete`).  Returns the serialized
bytes (or `none` on error) together with the final request state. -/
def serverAccessValidator (r : HttpRequest) : Option String × HttpRequest :=
  match attrSet r joinServer (AttrValue.bool true) with
  | none => (none, r)
  | some r1 =>
    match marshalRequest (buildRequest r1) with
    | none => (none, attrDelete r1 joinServer)
    | some data => (some data, attrDelete r1 joinServer)

/-- `validator.TopicsAccessValidator`: same as the server validator with
the `ws:joinTopics` marker holding the comma-joined topic list. -/
def topicsAccessValidator (r : HttpRequest) (topics : List String) : Option String × HttpRequest :=
  match attrSet r joinTopics (AttrValue.str (String.intercalate "," topics)) with
  | none => (none, r)
  | some r1 =>
    match marshalRequest (buildRequest r1) with
    | none => (none, attrDelete r1 joinTopics)
    | some data => (some data, attrDelete r1 joinTopics)

/-- Worker response to an authorization call, `validator.AccessValidator`:
decoded headers and status from the response context, body copied from the
response payload. -/
structure ValResp where
  status : Nat
  header : Header
  body : String
deriving DecidableEq

/-- Input to one run of the `Plugin.Middleware` handler on a request:
whether the request path equals the configured path, whether
`isOriginAllowed` accepts the Origin header, the outcome of the
`accessValidator` call (`none` models a non-nil error), whether
`ws.UpgradeHTTP` succeeds, and whether `Executor.StartCommandLoop`
returns a non-nil error. -/
structure MwInput where
  pathMatches : Bool
  originAllowed : Bool
  validatorResult : Option ValResp
  upgradeOk : Bool
  loopErr : Bool
deriving DecidableEq

/-- Observable effects of one run of the `Plugin.Middleware` handler:
read-lock acquire/release counts, what was written to the HTTP response,
and which lifecycle steps ran. -/
structure MwOutcome where
  passedThrough : Bool
  rlockAcquired : Nat
  rlockReleased : Nat
  wroteStatus : Option Nat
  addedHeaders : List (String × String)
  wroteBody : Option String
  upgraded : Bool
  connStored : Bool
  executorStarted : Bool
  connDeleted : Bool
  cleanUpCalled : Bool
  bodyClosed : Bool
  connClosed : Bool
deriving DecidableEq

/-- The all-false outcome a handler run starts from. -/
def MwOutcome.base : MwOutcome :=
  { passedThrough := false
    rlockAcquired := 0
    rlockReleased := 0
    wroteStatus := none
    addedHeaders := []
    wroteBody := none
    upgraded := false
    connStored := false
    executorStarted := false
    connDeleted := false
    cleanUpCalled := false
    bodyClosed := false
    connClosed := false }

/-- The nested loop `for k, v := range val.Header` / `for i` that copies
every validator header value onto the response. -/
def flattenHeaders (h : Header) : List (String × String) :=
  (h.map (fun p => p.2.map (fun v => (p.1, v)))).flatten

/-- Shallow embedding of `Plugin.Middleware` (plugin.go lines 188-262) as a
branch-for-branch translation of the handler body.  Each record literal
lists the effects accumulated on that return path: the origin-mismatch
path returns after `RLock` without `RUnlock`; the command-loop error path
returns before `connections.Delete`, `CleanUp`, `Body.Close` and
`Conn.Close`. -/
def middleware (i : MwInput) : MwOutcome :=
  if i.pathMatches = false then
    { MwOutcome.base with passedThrough := true }
  else
    if i.originAllowed = false then
      { MwOutcome.base with
        rlockAcquired := 1
        wroteStatus := some 405 }
    else
      match i.validatorResult with
      | none =>
        { MwOutcome.base with
          rlockAcquired := 1
          rlockReleased := 1
          wroteStatus := some 400 }
      | some val =>
        if val.status ≠ 200 then
          { MwOutcome.base with
            rlockAcquired := 1
            rlockReleased := 1
            addedHeaders := flattenHeaders val.header
            wroteStatus := some val.status
            wroteBody := some val.body }
        else if i.upgradeOk = false then
          { MwOutcome.base with
            rlockAcquired := 1
            rlockReleased := 1 }
        else if i.loopErr then
          { MwOutcome.base with
            rlockAcquired := 1
            rlockReleased := 1
            upgraded := true
            connStored := true
            executorStarted := true }
        else
          { MwOutcome.base with
            rlockAcquired := 1
            rlockReleased := 1
            upgraded := true
            connStored := true
            executorStarted := true
            connDeleted := true
            cleanUpCalled := true
            bodyClosed := true
            connClosed := true }

/-- One outcome of the broker's `Next(ctx)` call: a message, a Timeout
error, or any other error. -/
inductive NextResult where
  | msg (m : String)
  | timeoutErr
  | otherErr (e : String)
deriving DecidableEq

/-- How the broker reader goroutine of `Plugin.Serve` ended on a finite
trace of `Next` outcomes: still looping, exited with no send on the error
channel, or exited after sending an error. -/
inductive LoopExit where
  | running
  | cleanExit
  | errExit (e : String)
deriving DecidableEq

/-- The broker reader goroutine of `Plugin.Serve` (plugin.go lines
146-160) run over a finite trace of `Next` outcomes: messages are queued
to the fan-out pool and the loop continues; a Timeout error returns
without touching the error channel; any other error is sent on the error
channel before returning. -/
def brokerReaderLoop : List NextResult → List String × LoopExit
  | [] => ([], LoopExit.running)
  | NextResult.msg m :: rest =>
    let (q, ex) := brokerReaderLoop rest
    (m :: q, ex)
  | NextResult.timeoutErr :: _ => ([], LoopExit.cleanExit)
  | NextResult.otherErr e :: _ => ([], LoopExit.errExit e)

/-- One payload slot, `payload.Payload` restricted to the two byte fields
the plugin touches. -/
structure Payload where
  context : String
  body : String
deriving DecidableEq

/-- The slot produced by the pool's `New` function: `make([]byte, 0, 100)`
for both fields, so both have length zero. -/
def newPayload : Payload := { context := "", body := "" }

/-- `Plugin.getPld`: take a slot from the free list, or a fresh one from
`New` when the list is empty. -/
def getPld (pool : List Payload) : Payload × List Payload :=
  match pool with
  | [] => (newPayload, [])
  | p :: ps => (p, ps)

/-- `Plugin.putPld`: reset both fields to zero length, then return the
slot to the free list. -/
def putPld (pool : List Payload) (pld : Payload) : List Payload :=
  { pld with context := "", body := "" } :: pool

/-- Every slot sitting in the free list has zero-length fields. -/
def PoolZeroed (pool : List Payload) : Prop :=
  ∀ q ∈ pool, q.context.length = 0 ∧ q.body.length = 0

/-- Environment of one `Plugin.exec` call: the result of
`phpPool.Exec(pd)` (`none` models a non-nil error) and the result of
`json.Unmarshal(rsp.Context, val)` (`none` models a decode error, `some`
gives the decoded status and headers; the body is not part of the decoded
context and is copied from `rsp.Body`). -/
structure ExecOracle where
  poolResult : Option Payload
  decodeCtx : String → Option (Nat × Header)

/-- `Plugin.exec` (plugin.go lines 354-378): take a payload slot, fill its
context, run the worker, decode; the deferred `putPld` returns the slot on
every path.  The first component is the decoded validator response
(`none` models the error returns), the second the pool free list after
the deferred put. -/
def execModel (o : ExecOracle) (pool : List Payload) (ctx : String) :
    Option ValResp × List Payload :=
  let (pd, pool1) := getPld pool
  let pd1 := { pd with context := ctx }
  match o.poolResult with
  | none => (none, putPld pool1 pd1)
  | some rsp =>
    match o.decodeCtx rsp.context with
    | none => (none, putPld pool1 pd1)
    | some (st, hd) =>
      (some { status := st, header := hd, body := rsp.body }, putPld pool1 pd1)

/-- `Plugin.defaultAccessValidator` (plugin.go lines 304-342): initialize
the attribute bag, pick the server or topics serializer by the length of
the topic list, run the worker, and in topic mode additionally turn a
non-200 status into a non-nil error.  The boolean in the result is true
exactly when the Go function returns a non-nil error. -/
def defaultAccessValidator (o : ExecOracle) (pool : List Payload)
    (r : HttpRequest) (topics : List String) :
    (Option ValResp × Bool) × List Payload :=
  let r0 := attrInit r
  if topics.length = 0 then
    match serverAccessValidator r0 with
    | (none, _) => ((none, true), pool)
    | (some ctx, _) =>
      match execModel o pool ctx with
      | (none, pool1) => ((none, true), pool1)
      | (some val, pool1) => ((some val, false), pool1)
  else
    match topicsAccessValidator r0 topics with
    | (none, _) => ((none, true), pool)
    | (some ctx, _) =>
      match execModel o pool ctx with
      | (none, pool1) => ((none, true), pool1)
      | (some val, pool1) =>
        if val.status ≠ 200 then ((some val, true), pool1)
        else ((some val, false), pool1)

/-- A concrete upgrade request used by witnesses and counterexamples: two
header entries and an initialized empty attribute bag. -/
def sampleRequest : HttpRequest :=
  { remoteAddr := "1.2.3.4:5"
    proto := "HTTP/1.1"
    method := "GET"
    urlString := "/ws"
    urlHost := ""
    host := "h"
    tls := false
    rawQuery := ""
    header := [("A", ["1"]), ("B", ["2"])]
    attrs := some [] }

/-- The same request with the header map's iteration order permuted. -/
def sampleRequestPerm : HttpRequest :=
  { sampleRequest with header := [("B", ["2"]), ("A", ["1"])] }

/-- The sample request with a non-empty attribute bag. -/
def bagRequest : HttpRequest :=
  { sampleRequest with attrs := some [("user", AttrValue.str "u")] }

/-- An exec environment whose worker decodes to a 403 denial. -/
def denyOracle : ExecOracle :=
  { poolResult := some ⟨"rspctx", "rspbody"⟩
    decodeCtx := fun _ => some (403, [("Y", ["z"])]) }

/-- An exec environment whose worker pool call fails. -/
def failOracle : ExecOracle :=
  { poolResult := none
    decodeCtx := fun _ => none }

/-! ### Association-list helper lemmas -/

theorem lookupEntry_setEntry_self (m : List (String × AttrValue)) (k : String) (v : AttrValue) :
    lookupEntry (setEntry m k v) k = some v := by
  induction m with
  | nil => simp [setEntry, lookupEntry]
  | cons p rest ih =>
    by_cases h : p.1 = k <;> simp [setEntry, lookupEntry, h, ih]

theorem lookupEntry_setEntry_ne (m : List (String × AttrValue)) (k k' : String) (v : AttrValue)
    (h : k' ≠ k) : lookupEntry (setEntry m k v) k' = lookupEntry m k' := by
  induction m with
  | nil => simp [setEntry, lookupEntry, Ne.symm h]
  | cons p rest ih =>
    by_cases hp : p.1 = k
    · simp [setEntry, lookupEntry, hp, Ne.symm h]
    · simp [setEntry, lookupEntry, hp, ih]

theorem lookupEntry_delEntry_self (m : List (String × AttrValue)) (k : String) :
    lookupEntry (delEntry m k) k = none := by
  induction m with
  | nil => rfl
  | cons p rest ih =>
    by_cases h : p.1 = k
    · have hb : (p.1 != k) = false := by simp [h]
      simpa [delEntry, List.filter_cons, hb] using ih
    · have hb : (p.1 != k) = true := by simp [h]
      simpa [delEntry, List.filter_cons, hb, lookupEntry, h] using ih

theorem lookupEntry_delEntry_ne (m : List (String × AttrValue)) (k k' : String)
    (h : k' ≠ k) : lookupEntry (delEntry m k) k' = lookupEntry m k' := by
  induction m with
  | nil => rfl
  | cons p rest ih =>
    by_cases hp : p.1 = k
    · have hb : (p.1 != k) = false := by simp [hp]
      have hpk : p.1 ≠ k' := by rw [hp]; exact Ne.symm h
      simpa [delEntry, List.filter_cons, hb, lookupEntry, hpk] using ih
    · have hb : (p.1 != k) = true := by simp [hp]
      by_cases hk : p.1 = k'
      · simp [delEntry, List.filter_cons, hb, lookupEntry, hk, h]
      · simpa [delEntry, List.filter_cons, hb, lookupEntry, hk] using ih

theorem delEntry_setEntry (m : List (String × AttrValue)) (k : String) (v : AttrValue)
    (h : lookupEntry m k = none) : delEntry (setEntry m k v) k = m := by
  induction m with
  | nil => simp [setEntry, delEntry, List.filter_cons]
  | cons p rest ih =>
    by_cases hp : p.1 = k
    · simp [lookupEntry, hp] at h
    · have hb : (p.1 != k) = true := by simp [hp]
      have h' : lookupEntry rest k = none := by
        simpa [lookupEntry, hp] using h
      have := ih h'
      simp only [delEntry] at this
      simp [setEntry, delEntry, List.filter_cons, hb, hp, this]

/-! ### Index-search helper lemmas for the SplitHostPort model -/

theorem goIndexByte_eq_none (t : Char) (l : List Char) (h : t ∉ l) :
    goIndexByte t l = none := by
  induction l with
  | nil => rfl
  | cons c cs ih =>
    rw [List.mem_cons] at h
    push_neg at h
    rw [goIndexByte, if_neg (fun e => h.1 e.symm), ih h.2]
    rfl

theorem goLastIndexByte_eq_none (t : Char) (l : List Char) (h : t ∉ l) :
    goLastIndexByte t l = none := by
  induction l with
  | nil => rfl
  | cons c cs ih =>
    rw [List.mem_cons] at h
    push_neg at h
    simp only [goLastIndexByte, ih h.2]
    exact if_neg (fun e => h.1 e.symm)

theorem goLastIndexByte_append (t : Char) (l1 l2 : List Char) (i : Nat)
    (h : goLastIndexByte t l2 = some i) :
    goLastIndexByte t (l1 ++ l2) = some (l1.length + i) := by
  induction l1 with
  | nil => simpa using h
  | cons c cs ih =>
    rw [List.cons_append, goLastIndexByte, ih]
    simp only [List.length_cons, Option.some.injEq]
    omega

theorem drop_len_cons {α : Type} (l1 l2 : List α) (c : α) :
    (l1 ++ c :: l2).drop (l1.length + 1) = l2 := by
  induction l1 with
  | nil => simp
  | cons a as ih =>
    simp only [List.cons_append, List.length_cons, List.drop_succ_cons]
    exact ih

/-! ### Validator post-state helper lemmas -/

theorem marshal_branch_snd (r1 : HttpRequest) (key : String) :
    (match marshalRequest (buildRequest r1) with
      | none => ((none : Option String), attrDelete r1 key)
      | some data => (some data, attrDelete r1 key)).2 = attrDelete r1 key := by
  cases marshalRequest (buildRequest r1) <;> rfl

theorem serverAccessValidator_snd (r : HttpRequest) :
    (serverAccessValidator r).2 =
      match attrSet r joinServer (AttrValue.bool true) with
      | none => r
      | some r1 => attrDelete r1 joinServer := by
  rw [serverAccessValidator]
  cases attrSet r joinServer (AttrValue.bool true) with
  | none => rfl
  | some r1 => exact marshal_branch_snd r1 joinServer

theorem topicsAccessValidator_snd (r : HttpRequest) (topics : List String) :
    (topicsAccessValidator r topics).2 =
      match attrSet r joinTopics (AttrValue.str (String.intercalate "," topics)) with
      | none => r
      | some r1 => attrDelete r1 joinTopics := by
  rw [topicsAccessValidator]
  cases attrSet r joinTopics (AttrValue.str (String.intercalate "," topics)) with
  | none => rfl
  | some r1 => exact marshal_branch_snd r1 joinTopics

theorem scoped_marker_lookup (r : HttpRequest) (key : String) (v : AttrValue) :
    attrLookup (match attrSet r key v with | none => r | some r1 => attrDelete r1 key) key
      = none := by
  cases hr : r.attrs with
  | none => simp [attrSet, hr, attrLookup, attrAll, lookupEntry]
  | some m =>
    simp [attrSet, hr, attrDelete, attrLookup, attrAll, lookupEntry_delEntry_self]

theorem scoped_other_lookup (r : HttpRequest) (key k : String) (v : AttrValue)
    (hk : k ≠ key) :
    attrLookup (match attrSet r key v with | none => r | some r1 => attrDelete r1 key) k
      = attrLookup r k := by
  cases hr : r.attrs with
  | none => simp [attrSet, hr]
  | some m =>
    simp [attrSet, hr, attrDelete, attrLookup, attrAll,
      lookupEntry_delEntry_ne _ _ _ hk, lookupEntry_setEntry_ne _ _ _ _ hk]

theorem scoped_restore (r : HttpRequest) (key : String) (v : AttrValue)
    (h : attrLookup r key = none) :
    (match attrSet r key v with | none => r | some r1 => attrDelete r1 key) = r := by
  cases hr : r.attrs with
  | none => simp [attrSet, hr]
  | some m =>
    have hm : lookupEntry m key = none := by simpa [attrLookup, attrAll, hr] using h
    simp only [attrSet, hr, attrDelete, delEntry_setEntry m key v hm]
    rw [← hr]

theorem serverAccessValidator_eq (r r1 : HttpRequest)
    (h : attrSet r joinServer (AttrValue.bool true) = some r1) :
    serverAccessValidator r = (marshalRequest (buildRequest r1), attrDelete r1 joinServer) := by
  simp only [serverAccessValidator, h]
  cases marshalRequest (buildRequest r1) <;> rfl

theorem topicsAccessValidator_eq (r r1 : HttpRequest) (topics : List String)
    (h : attrSet r joinTopics (AttrValue.str (String.intercalate "," topics)) = some r1) :
    topicsAccessValidator r topics
      = (marshalRequest (buildRequest r1), attrDelete r1 joinTopics) := by
  simp only [topicsAccessValidator, h]
  cases marshalRequest (buildRequest r1) <;> rfl

theorem execModel_eq (o : ExecOracle) (pool : List Payload) (ctx : String) :
    execModel o pool ctx =
      ((match o.poolResult with
        | none => none
        | some rsp =>
          match o.decodeCtx rsp.context with
          | none => none
          | some (st, hd) => some { status := st, header := hd, body := rsp.body }),
        putPld (getPld pool).2 { (getPld pool).1 with context := ctx }) := by
  cases pool <;>
    · simp only [execModel, getPld]
      cases hpr : o.poolResult with
      | none => rfl
      | some rsp =>
        cases hdc : o.decodeCtx rsp.context with
        | none => simp [hdc]
        | some p => cases p with | mk st hdr => simp [hdc]

theorem marshal_marker_bool_isSome (r : HttpRequest) :
    (marshalRequest
        (buildRequest { r with attrs := some [(joinServer, AttrValue.bool true)] })).isSome
      = true := rfl

theorem marshal_marker_str_isSome (r : HttpRequest) (s : String) :
    (marshalRequest
        (buildRequest { r with attrs := some [(joinTopics, AttrValue.str s)] })).isSome
      = true := rfl

theorem attrSet_attrInit_server (r : HttpRequest) :
    attrSet (attrInit r) joinServer (AttrValue.bool true)
      = some { r with attrs := some [(joinServer, AttrValue.bool true)] } := by
  simp [attrInit, attrSet, setEntry]

theorem attrSet_attrInit_topics (r : HttpRequest) (s : String) :
    attrSet (attrInit r) joinTopics (AttrValue.str s)
      = some { r with attrs := some [(joinTopics, AttrValue.str s)] } := by
  simp [attrInit, attrSet, setEntry]

/-! ### Claim theorems -/

/-- Claim C1: the claim states that the cleanup sequence (registry delete,
CleanUp, body close, connection close) runs for every termination of the
command loop.  The code contradicts it: when `StartCommandLoop` returns an
error the handler logs and returns at once, so the stored connection is
never deleted, CleanUp never runs, and neither the body nor the connection
is closed; the sequence runs only when the loop returns nil. -/
theorem c1_middleware_cleanup_skipped_on_loop_error :
    (middleware ⟨true, true, some ⟨200, [], ""⟩, true, true⟩).connStored = true ∧
    (middleware ⟨true, true, some ⟨200, [], ""⟩, true, true⟩).executorStarted = true ∧
    (middleware ⟨true, true, some ⟨200, [], ""⟩, true, true⟩).connDeleted = false ∧
    (middleware ⟨true, true, some ⟨200, [], ""⟩, true, true⟩).cleanUpCalled = false ∧
    (middleware ⟨true, true, some ⟨200, [], ""⟩, true, true⟩).bodyClosed = false ∧
    (middleware ⟨true, true, some ⟨200, [], ""⟩, true, true⟩).connClosed = false ∧
    (middleware ⟨true, true, some ⟨200, [], ""⟩, true, false⟩).connDeleted = true ∧
    (middleware ⟨true, true, some ⟨200, [], ""⟩, true, false⟩).cleanUpCalled = true ∧
    (middleware ⟨true, true, some ⟨200, [], ""⟩, true, false⟩).bodyClosed = true ∧
    (middleware ⟨true, true, some ⟨200, [], ""⟩, true, false⟩).connClosed = true := by
  decide

/-- Claim C2: the claim states that every handler path acquiring the read
lock also releases it.  The code contradicts it on the origin-mismatch
path, which returns after writing 405 with the lock still held (one
acquire, zero releases); the validator-error, deny and success paths do
balance. -/
theorem c2_middleware_rlock_leak_on_origin_mismatch :
    (middleware ⟨true, false, none, false, false⟩).rlockAcquired = 1 ∧
    (middleware ⟨true, false, none, false, false⟩).rlockReleased = 0 ∧
    (middleware ⟨true, true, none, false, false⟩).rlockAcquired = 1 ∧
    (middleware ⟨true, true, none, false, false⟩).rlockReleased = 1 ∧
    (middleware ⟨true, true, some ⟨403, [], ""⟩, false, false⟩).rlockAcquired = 1 ∧
    (middleware ⟨true, true, some ⟨403, [], ""⟩, false, false⟩).rlockReleased = 1 ∧
    (middleware ⟨true, true, some ⟨200, [], ""⟩, true, false⟩).rlockAcquired = 1 ∧
    (middleware ⟨true, true, some ⟨200, [], ""⟩, true, false⟩).rlockReleased = 1 := by
  decide

/-- Claim C4: when the server-admission validator reports a status other
than 200, the handler propagates every header value, the status and the
body of the validator response to the HTTP response and returns without
upgrading, storing a connection, or starting an executor. -/
theorem c4_middleware_deny_propagation (i : MwInput) (val : ValResp)
    (hp : i.pathMatches = true) (ho : i.originAllowed = true)
    (hv : i.validatorResult = some val) (hs : val.status ≠ 200) :
    middleware i =
      { MwOutcome.base with
        rlockAcquired := 1
        rlockReleased := 1
        addedHeaders := flattenHeaders val.header
        wroteStatus := some val.status
        wroteBody := some val.body } := by
  simp [middleware, hp, ho, hv, hs]

/-- Witness for C4 at a concrete denied upgrade (status 403 with a
two-valued header and a body). -/
theorem c4_middleware_deny_propagation_witness :
    middleware ⟨true, true, some ⟨403, [("X", ["a", "b"])], "denied"⟩, false, false⟩ =
      { MwOutcome.base with
        rlockAcquired := 1
        rlockReleased := 1
        addedHeaders := [("X", "a"), ("X", "b")]
        wroteStatus := some 403
        wroteBody := some "denied" } := by
  rw [c4_middleware_deny_propagation _ ⟨403, [("X", ["a", "b"])], "denied"⟩ rfl rfl rfl
    (by decide)]
  rfl

/-- Claim C7: the broker reader loop queues every message yielded by
`Next` and keeps looping; a Timeout error makes it exit without sending
on the Serve error channel; any other error is sent on the error channel
before the loop exits. -/
theorem c7_broker_reader_loop (ms : List String) (rest : List NextResult) (e : String) :
    brokerReaderLoop (ms.map NextResult.msg) = (ms, LoopExit.running) ∧
    brokerReaderLoop (ms.map NextResult.msg ++ NextResult.timeoutErr :: rest)
      = (ms, LoopExit.cleanExit) ∧
    brokerReaderLoop (ms.map NextResult.msg ++ NextResult.otherErr e :: rest)
      = (ms, LoopExit.errExit e) := by
  induction ms with
  | nil => simp [brokerReaderLoop]
  | cons m ms ih =>
    refine ⟨?_, ?_, ?_⟩ <;> simp [brokerReaderLoop, ih.1, ih.2.1, ih.2.2]

/-- Claim C8: `putPld` returns only zero-length slots to the pool, the
zeroed-pool invariant is preserved, and under it `getPld` hands out only
zero-length slots (the fresh slot from `New` included). -/
theorem c8_payload_pool_zeroed (pool : List Payload) (pld : Payload) :
    (putPld pool pld).head? = some newPayload ∧
    (PoolZeroed pool → PoolZeroed (putPld pool pld)) ∧
    (PoolZeroed pool →
      (getPld pool).1.context.length = 0 ∧ (getPld pool).1.body.length = 0) := by
  refine ⟨rfl, ?_, ?_⟩
  · intro h q hq
    rcases List.mem_cons.mp hq with h1 | h1
    · subst h1; exact ⟨rfl, rfl⟩
    · exact h q h1
  · intro h
    cases pool with
    | nil => exact ⟨rfl, rfl⟩
    | cons p ps => exact h p (List.mem_cons_self p ps)

/-- Witness for C8: a dirty slot returned to the empty pool comes back
zeroed, and the slot obtained afterwards has zero-length fields. -/
theorem c8_payload_pool_zeroed_witness :
    (putPld [] ⟨"abc", "defg"⟩).head? = some newPayload ∧
    PoolZeroed (putPld [] ⟨"abc", "defg"⟩) ∧
    ((getPld (putPld [] ⟨"abc", "defg"⟩)).1.context.length = 0 ∧
      (getPld (putPld [] ⟨"abc", "defg"⟩)).1.body.length = 0) := by
  have hz : PoolZeroed ([] : List Payload) := by intro q hq; cases hq
  have h := c8_payload_pool_zeroed [] ⟨"abc", "defg"⟩
  have h2 := c8_payload_pool_zeroed (putPld [] ⟨"abc", "defg"⟩) ⟨"x", "y"⟩
  exact ⟨h.1, h.2.1 hz, h2.2.2 (h.2.1 hz)⟩

/-- Claim C3 counterexample: `"::1"` contains no port, yet `FetchIP` does
not return it unchanged — the colon makes it take the `SplitHostPort`
branch, which fails on a bare IPv6 literal and yields the empty host. -/
theorem c3_fetchIP_counterexample :
    fetchIP (String.data "::1") = [] ∧ fetchIP (String.data "::1") ≠ String.data "::1" := by
  decide

/-- Claim C3 (amended): an input with no colon is returned unchanged, and
a well-formed `host:port` input (host and port free of colons and square
brackets) yields the host; a colon-bearing input that is not a valid
host:port pair instead yields the empty string, because the error of
`SplitHostPort` is discarded. -/
theorem c3_fetchIP_amended (pair host port : List Char)
    (hhc : ':' ∉ host) (hhl : '[' ∉ host) (hhr : ']' ∉ host)
    (hpc : ':' ∉ port) (hpl : '[' ∉ port) (hpr : ']' ∉ port)
    (hnc : ':' ∉ pair) :
    fetchIP (host ++ ':' :: port) = host ∧ fetchIP pair = pair := by
  constructor
  · have h2 : goLastIndexByte ':' (':' :: port) = some 0 := by
      simp [goLastIndexByte, goLastIndexByte_eq_none ':' port hpc]
    have hlast : goLastIndexByte ':' (host ++ ':' :: port) = some host.length := by
      simpa using goLastIndexByte_append ':' host (':' :: port) 0 h2
    have hmem : ':' ∈ host ++ ':' :: port := by simp
    have hhead : ¬(host ++ ':' :: port).head? = some '[' := by
      cases host with
      | nil =>
        intro e
        simp at e
      | cons c cs =>
        simp only [List.cons_append, List.head?_cons, Option.some.injEq]
        intro e
        exact hhl (e ▸ List.mem_cons_self c cs)
    have hlb : '[' ∉ host ++ ':' :: port := by
      intro hm
      rcases List.mem_append.mp hm with h1 | h1
      · exact hhl h1
      · rcases List.mem_cons.mp h1 with h2 | h2
        · exact absurd h2 (by decide)
        · exact hpl h2
    have hrb : ']' ∉ host ++ ':' :: port := by
      intro hm
      rcases List.mem_append.mp hm with h1 | h1
      · exact hhr h1
      · rcases List.mem_cons.mp h1 with h2 | h2
        · exact absurd h2 (by decide)
        · exact hpr h2
    have hfl : goIndexByte '[' (host ++ ':' :: port) = none := goIndexByte_eq_none _ _ hlb
    have hfr : goIndexByte ']' (host ++ ':' :: port) = none := goIndexByte_eq_none _ _ hrb
    rw [fetchIP, if_pos hmem]
    unfold splitHostPort
    rw [hlast]
    simp only [hhead, if_false, List.take_left, hfl, hfr, Option.isSome_none,
      Bool.false_eq_true, if_neg hhc]
  · rw [fetchIP, if_neg hnc]

/-- Witness for C3 (amended) at `"127.0.0.1:8080"` and `"localhost"`. -/
theorem c3_fetchIP_amended_witness :
    fetchIP (String.data "127.0.0.1" ++ ':' :: String.data "8080") = String.data "127.0.0.1" ∧
    fetchIP (String.data "localhost") = String.data "localhost" :=
  c3_fetchIP_amended (String.data "localhost") (String.data "127.0.0.1") (String.data "8080")
    (by decide) (by decide) (by decide) (by decide) (by decide) (by decide) (by decide)

/-- Claim C5: both validators remove their call-scoped join marker from
the request's attribute bag on every exit path after the marker is set
(the JSON-marshal error path included, via the deferred delete), and no
entry under any other key is added, removed or modified. -/
theorem c5_validators_scoped_markers (r : HttpRequest) (k : String) (topics : List String) :
    attrLookup (serverAccessValidator r).2 joinServer = none ∧
    (k ≠ joinServer → attrLookup (serverAccessValidator r).2 k = attrLookup r k) ∧
    attrLookup (topicsAccessValidator r topics).2 joinTopics = none ∧
    (k ≠ joinTopics → attrLookup (topicsAccessValidator r topics).2 k = attrLookup r k) := by
  refine ⟨?_, fun hk => ?_, ?_, fun hk => ?_⟩
  · rw [serverAccessValidator_snd]; exact scoped_marker_lookup r joinServer _
  · rw [serverAccessValidator_snd]; exact scoped_other_lookup r joinServer k _ hk
  · rw [topicsAccessValidator_snd]; exact scoped_marker_lookup r joinTopics _
  · rw [topicsAccessValidator_snd]; exact scoped_other_lookup r joinTopics k _ hk

/-- Witness for C5 at a request whose bag holds an unrelated `user`
entry. -/
theorem c5_validators_scoped_markers_witness :
    attrLookup (serverAccessValidator bagRequest).2 joinServer = none ∧
    attrLookup (serverAccessValidator bagRequest).2 "user" = attrLookup bagRequest "user" ∧
    attrLookup (topicsAccessValidator bagRequest ["a"]).2 joinTopics = none ∧
    attrLookup (topicsAccessValidator bagRequest ["a"]).2 "user"
      = attrLookup bagRequest "user" := by
  have h := c5_validators_scoped_markers bagRequest "user" ["a"]
  exact ⟨h.1, h.2.1 (by decide), h.2.2.1, h.2.2.2 (by decide)⟩

/-- Claim C6 counterexample: the serialized request carries no attribute
named `joinServer`; the marker key the code writes is `ws:joinServer`. -/
theorem c6_marker_name_counterexample :
    lookupEntry (buildRequest
        ((attrSet (attrInit sampleRequest) joinServer (AttrValue.bool true)).getD
          sampleRequest)).attributes "joinServer" = none ∧
    lookupEntry (buildRequest
        ((attrSet (attrInit sampleRequest) joinServer (AttrValue.bool true)).getD
          sampleRequest)).attributes "ws:joinServer" = some (AttrValue.bool true) := by
  decide

/-- Claim C6 (amended): whenever the attribute bag is initialized, the
request serialized for server admission carries the marker `ws:joinServer`
with value `true`, and the one serialized for topic admission carries
`ws:joinTopics` with the comma-joined topic list as value. -/
theorem c6_markers_amended (r : HttpRequest) (m : List (String × AttrValue))
    (topics : List String) (hr : r.attrs = some m) :
    ((attrSet r joinServer (AttrValue.bool true)).map
        (fun r1 => lookupEntry (buildRequest r1).attributes joinServer))
      = some (some (AttrValue.bool true)) ∧
    ((attrSet r joinTopics (AttrValue.str (String.intercalate "," topics))).map
        (fun r2 => lookupEntry (buildRequest r2).attributes joinTopics))
      = some (some (AttrValue.str (String.intercalate "," topics))) := by
  constructor <;>
    simp [attrSet, hr, buildRequest, attrAll, lookupEntry_setEntry_self]

/-- Witness for C6 (amended) on the sample request with two topics. -/
theorem c6_markers_amended_witness :
    ((attrSet sampleRequest joinServer (AttrValue.bool true)).map
        (fun r1 => lookupEntry (buildRequest r1).attributes joinServer))
      = some (some (AttrValue.bool true)) ∧
    ((attrSet sampleRequest joinTopics
          (AttrValue.str (String.intercalate "," ["news", "sport"]))).map
        (fun r2 => lookupEntry (buildRequest r2).attributes joinTopics))
      = some (some (AttrValue.str (String.intercalate "," ["news", "sport"]))) :=
  c6_markers_amended sampleRequest [] ["news", "sport"] rfl

/-- Claim C9 counterexample: two requests equal as maps (the header lists
are permutations of each other, all other fields equal) serialize to
different bytes, because the header map is emitted in iteration order —
json-iterator's default configuration does not sort map keys, and Go does
not fix map iteration order. -/
theorem c9_serialization_counterexample :
    List.Perm sampleRequest.header sampleRequestPerm.header ∧
    sampleRequest.remoteAddr = sampleRequestPerm.remoteAddr ∧
    sampleRequest.proto = sampleRequestPerm.proto ∧
    sampleRequest.method = sampleRequestPerm.method ∧
    sampleRequest.urlString = sampleRequestPerm.urlString ∧
    sampleRequest.urlHost = sampleRequestPerm.urlHost ∧
    sampleRequest.host = sampleRequestPerm.host ∧
    sampleRequest.tls = sampleRequestPerm.tls ∧
    sampleRequest.rawQuery = sampleRequestPerm.rawQuery ∧
    sampleRequest.attrs = sampleRequestPerm.attrs ∧
    (serverAccessValidator sampleRequest).1 ≠ (serverAccessValidator sampleRequestPerm).1 := by
  decide

/-- Claim C9 (amended): serialization is deterministic as a function of
the request including its map iteration orders — each validator restores
the request (marker key initially absent), and a second call on the
restored request yields byte-identical output — but it is not stable
under reordering of the map entries of an otherwise equal request. -/
theorem c9_repeat_serialization (r : HttpRequest) (topics : List String)
    (hs : attrLookup r joinServer = none) (ht : attrLookup r joinTopics = none) :
    (serverAccessValidator r).2 = r ∧
    (serverAccessValidator ((serverAccessValidator r).2)).1 = (serverAccessValidator r).1 ∧
    (topicsAccessValidator r topics).2 = r ∧
    (topicsAccessValidator ((topicsAccessValidator r topics).2) topics).1
      = (topicsAccessValidator r topics).1 := by
  have h1 : (serverAccessValidator r).2 = r := by
    rw [serverAccessValidator_snd]
    exact scoped_restore r joinServer _ hs
  have h2 : (topicsAccessValidator r topics).2 = r := by
    rw [topicsAccessValidator_snd]
    exact scoped_restore r joinTopics _ ht
  exact ⟨h1, by rw [h1], h2, by rw [h2]⟩

/-- Witness for C9 (amended) on the sample request. -/
theorem c9_repeat_serialization_witness :
    (serverAccessValidator sampleRequest).2 = sampleRequest ∧
    (serverAccessValidator ((serverAccessValidator sampleRequest).2)).1
      = (serverAccessValidator sampleRequest).1 ∧
    (topicsAccessValidator sampleRequest ["a"]).2 = sampleRequest ∧
    (topicsAccessValidator ((topicsAccessValidator sampleRequest ["a"]).2) ["a"]).1
      = (topicsAccessValidator sampleRequest ["a"]).1 :=
  c9_repeat_serialization sampleRequest ["a"] (by decide) (by decide)

/-- Claim C10: the default access validator reports denial asymmetrically
by mode — in topic mode a non-200 worker status comes back as a non-nil
result together with a non-nil error, in server mode as a non-nil result
with a nil error; in both modes a worker transport failure or an
undecodable response context yields a nil result and a non-nil error. -/
theorem c10_default_validator_asymmetry (o : ExecOracle) (pool : List Payload)
    (r : HttpRequest) (topics : List String) (rsp : Payload) (st : Nat) (hd : Header) :
    (o.poolResult = none →
      (defaultAccessValidator o pool r topics).1 = (none, true)) ∧
    (o.poolResult = some rsp → o.decodeCtx rsp.context = none →
      (defaultAccessValidator o pool r topics).1 = (none, true)) ∧
    (topics = [] → o.poolResult = some rsp → o.decodeCtx rsp.context = some (st, hd) →
      (defaultAccessValidator o pool r topics).1 = (some ⟨st, hd, rsp.body⟩, false)) ∧
    (topics ≠ [] → o.poolResult = some rsp → o.decodeCtx rsp.context = some (st, hd) →
      st ≠ 200 →
      (defaultAccessValidator o pool r topics).1 = (some ⟨st, hd, rsp.body⟩, true)) := by
  obtain ⟨sctx, hs⟩ := Option.isSome_iff_exists.mp (marshal_marker_bool_isSome r)
  have hsrv : serverAccessValidator (attrInit r)
      = (some sctx,
          attrDelete { r with attrs := some [(joinServer, AttrValue.bool true)] } joinServer) := by
    rw [serverAccessValidator_eq _ _ (attrSet_attrInit_server r), hs]
  have htv : ∀ topics1 : List String, ∃ tctx, topicsAccessValidator (attrInit r) topics1
      = (some tctx,
          attrDelete
            { r with
              attrs := some [(joinTopics,
                AttrValue.str (String.intercalate "," topics1))] } joinTopics) := by
    intro topics1
    obtain ⟨tctx, hts⟩ := Option.isSome_iff_exists.mp
      (marshal_marker_str_isSome r (String.intercalate "," topics1))
    exact ⟨tctx, by rw [topicsAccessValidator_eq _ _ _ (attrSet_attrInit_topics r _), hts]⟩
  refine ⟨fun hp => ?_, fun hp hdec => ?_, fun htopics hp hdec => ?_,
    fun htopics hp hdec hst => ?_⟩
  · cases topics with
    | nil => simp [defaultAccessValidator, hsrv, execModel_eq, hp]
    | cons t ts =>
      obtain ⟨tctx, ht⟩ := htv (t :: ts)
      simp [defaultAccessValidator, ht, execModel_eq, hp]
  · cases topics with
    | nil => simp [defaultAccessValidator, hsrv, execModel_eq, hp, hdec]
    | cons t ts =>
      obtain ⟨tctx, ht⟩ := htv (t :: ts)
      simp [defaultAccessValidator, ht, execModel_eq, hp, hdec]
  · subst htopics
    simp [defaultAccessValidator, hsrv, execModel_eq, hp, hdec]
  · cases topics with
    | nil => exact absurd rfl htopics
    | cons t ts =>
      obtain ⟨tctx, ht⟩ := htv (t :: ts)
      simp [defaultAccessValidator, ht, execModel_eq, hp, hdec, hst]

/-- Witness for C10: a failing pool call in server mode, and a 403 denial
in server mode (nil error) versus topic mode (non-nil error). -/
theorem c10_default_validator_asymmetry_witness :
    (defaultAccessValidator failOracle [] sampleRequest []).1 = (none, true) ∧
    (defaultAccessValidator denyOracle [] sampleRequest []).1
      = (some ⟨403, [("Y", ["z"])], "rspbody"⟩, false) ∧
    (defaultAccessValidator denyOracle [] sampleRequest ["news"]).1
      = (some ⟨403, [("Y", ["z"])], "rspbody"⟩, true) := by
  refine ⟨?_, ?_, ?_⟩
  · exact (c10_default_validator_asymmetry failOracle [] sampleRequest [] ⟨"", ""⟩ 0 []).1 rfl
  · exact (c10_default_validator_asymmetry denyOracle [] sampleRequest []
      ⟨"rspctx", "rspbody"⟩ 403 [("Y", ["z"])]).2.2.1 rfl rfl rfl
  · exact (c10_default_validator_asymmetry denyOracle [] sampleRequest ["news"]
      ⟨"rspctx", "rspbody"⟩ 403 [("Y", ["z"])]).2.2.2 (by decide) rfl rfl (by decide)

end Websockets
